import Mathlib

/-!
Shallow embedding of the GenAI-Project-Backend repository
(`app.py`, `huggingface_api.py`, `utils.py`) and proofs about it.

Conventions of the embedding:
* Python byte strings are `List Nat` with every element `< 256`.
* Python text strings handled character-wise are `List Char`; strings that
  are only carried around are `String`.
* Python `float` parameters are modelled as `ℚ` (the comparisons in the code
  are order comparisons against exactly representable literals).
* The network (`requests.post`) and the random generator are oracles passed
  in explicitly; the SQLite database is an explicit `Store` value.
* PIL (`Image.open` / `Image.save`) is an external image library outside this
  repository; an image value is identified with its PNG byte serialization,
  so `Image.open` followed by `save(format=PNG)` is the identity on the bytes.
-/

namespace GenAI

/-- The base64 alphabet used by Python's `base64.b64encode` / `b64decode`
(`utils.py` delegates to the standard `base64` module). -/
def b64Alphabet : List Char :=
  "ABCDEFGHIJKLMNOPQRSTUVWXYZabcdefghijklmnopqrstuvwxyz0123456789+/".toList

/-- The character encoding a 6-bit group. -/
def b64c (n : Nat) : Char := b64Alphabet.getD n 'A'

/-- The 6-bit value of a base64 character. -/
def b64v (c : Char) : Option Nat := b64Alphabet.findIdx? (fun x => x == c)

/-- Model of `base64.b64encode`: bytes to base64 text, with `=` padding. -/
def b64encode : List Nat → List Char
  | a :: b :: c :: rest =>
      b64c (a / 4) :: b64c (a % 4 * 16 + b / 16) :: b64c (b % 16 * 4 + c / 64) ::
        b64c (c % 64) :: b64encode rest
  | [a, b] => [b64c (a / 4), b64c (a % 4 * 16 + b / 16), b64c (b % 16 * 4), '=']
  | [a] => [b64c (a / 4), b64c (a % 4 * 16), '=', '=']
  | [] => []

/-- Model of `base64.b64decode`: base64 text to bytes; `none` models the exception on
malformed input. -/
def b64decode : List Char → Option (List Nat)
  | [] => some []
  | c1 :: c2 :: c3 :: c4 :: rest =>
      if c3 = '=' ∧ c4 = '=' ∧ rest = [] then
        match b64v c1, b64v c2 with
        | some s1, some s2 => some [s1 * 4 + s2 / 16]
        | _, _ => none
      else if c4 = '=' ∧ rest = [] then
        match b64v c1, b64v c2, b64v c3 with
        | some s1, some s2, some s3 => some [s1 * 4 + s2 / 16, s2 % 16 * 16 + s3 / 4]
        | _, _, _ => none
      else
        match b64v c1, b64v c2, b64v c3, b64v c4, b64decode rest with
        | some s1, some s2, some s3, some s4, some tail =>
            some ((s1 * 4 + s2 / 16) :: (s2 % 16 * 16 + s3 / 4) :: (s3 % 4 * 64 + s4) :: tail)
        | _, _, _, _, _ => none
  | _ => none

theorem b64v_b64c : ∀ n, n < 64 → b64v (b64c n) = some n := by decide

theorem b64c_mem_or (n : Nat) : b64c n ∈ b64Alphabet ∨ b64c n = 'A' := by
  by_cases h : n < b64Alphabet.length
  · left
    rw [b64c, List.getD_eq_getElem _ _ h]
    exact List.getElem_mem h
  · right
    rw [b64c, List.getD_eq_default _ _ (by omega)]

theorem b64c_ne_pad (n : Nat) : b64c n ≠ '=' := by
  rcases b64c_mem_or n with h | h
  · intro he
    rw [he] at h
    revert h
    decide
  · rw [h]
    decide

theorem b64c_ne_comma (n : Nat) : b64c n ≠ ',' := by
  rcases b64c_mem_or n with h | h
  · intro he
    rw [he] at h
    revert h
    decide
  · rw [h]
    decide

/-- Decoding inverts encoding on byte lists. -/
theorem b64decode_b64encode : ∀ l : List Nat, (∀ x ∈ l, x < 256) →
    b64decode (b64encode l) = some l
  | [], _ => rfl
  | [a], h => by
      have ha : a < 256 := h a (by simp)
      have e1 := b64v_b64c (a / 4) (by omega)
      have e2 := b64v_b64c (a % 4 * 16) (by omega)
      simp only [b64encode, b64decode, e1, e2]
      rw [if_pos ⟨trivial, trivial, trivial⟩]
      simp only [Option.some.injEq, List.cons.injEq, and_true]
      omega
  | [a, b], h => by
      have ha : a < 256 := h a (by simp)
      have hb : b < 256 := h b (by simp)
      have e1 := b64v_b64c (a / 4) (by omega)
      have e2 := b64v_b64c (a % 4 * 16 + b / 16) (by omega)
      have e3 := b64v_b64c (b % 16 * 4) (by omega)
      simp only [b64encode, b64decode, e1, e2, e3]
      rw [if_neg (fun hx => b64c_ne_pad _ hx.1), if_pos ⟨trivial, trivial⟩]
      simp only [Option.some.injEq, List.cons.injEq, and_true]
      constructor
      · omega
      · omega
  | a :: b :: c :: d :: rest, h => by
      have ha : a < 256 := h a (by simp)
      have hb : b < 256 := h b (by simp)
      have hc : c < 256 := h c (by simp)
      have ih := b64decode_b64encode (d :: rest) (fun x hx => h x (by simp [hx]))
      have e1 := b64v_b64c (a / 4) (by omega)
      have e2 := b64v_b64c (a % 4 * 16 + b / 16) (by omega)
      have e3 := b64v_b64c (b % 16 * 4 + c / 64) (by omega)
      have e4 := b64v_b64c (c % 64) (by omega)
      simp only [b64encode] at ih ⊢
      simp only [b64decode, e1, e2, e3, e4]
      rw [if_neg (fun hx => b64c_ne_pad _ hx.1),
        if_neg (fun hx => b64c_ne_pad _ hx.1), ih]
      simp only [Option.some.injEq, List.cons.injEq]
      refine ⟨by omega, by omega, by omega, trivial⟩
  | [a, b, c], h => by
      have ha : a < 256 := h a (by simp)
      have hb : b < 256 := h b (by simp)
      have hc : c < 256 := h c (by simp)
      have e1 := b64v_b64c (a / 4) (by omega)
      have e2 := b64v_b64c (a % 4 * 16 + b / 16) (by omega)
      have e3 := b64v_b64c (b % 16 * 4 + c / 64) (by omega)
      have e4 := b64v_b64c (c % 64) (by omega)
      simp only [b64encode, b64decode, e1, e2, e3, e4]
      rw [if_neg (fun hx => b64c_ne_pad _ hx.1),
        if_neg (fun hx => b64c_ne_pad _ hx.1)]
      simp only [Option.some.injEq, List.cons.injEq]
      refine ⟨by omega, by omega, by omega, trivial⟩

/-- The split separator literal `"base64,"` of `utils.base64_to_image`. -/
def b64Marker : List Char := "base64,".toList

/-- The fixed data-URI marker prepended by `utils.image_to_base64`:
`f"data:image/png;base64,\x7bimg_str\x7d"` minus the payload. -/
def dataUriMarker : List Char := "data:image/png;base64,".toList

/-- Model of `utils.image_to_base64`: a PIL image (identified with its PNG byte
serialization, produced by `image.save(buffer, format="PNG")`) is
base64-encoded and prefixed with the fixed PNG data-URI marker. -/
def image_to_base64 (pngBytes : List Nat) : List Char :=
  dataUriMarker ++ b64encode pngBytes

/-- The suffix after the first occurrence of `"base64,"`, or `none` when the
separator does not occur (Python `"base64," in base64_string` is false). -/
def findMarker : List Char → Option (List Char)
  | [] => none
  | c :: rest =>
      if b64Marker.isPrefixOf (c :: rest) then some ((c :: rest).drop b64Marker.length)
      else findMarker rest

/-- The segment before the next occurrence of `"base64,"` (Python's
`split` yields the text between the first and second occurrence as
element 1). -/
def takeBeforeMarker : List Char → List Char
  | [] => []
  | c :: rest =>
      if b64Marker.isPrefixOf (c :: rest) then []
      else c :: takeBeforeMarker rest

/-- The prefix-stripping step of `utils.base64_to_image`:
`base64_string.split("base64,")[1]` when the separator occurs, the string
unchanged otherwise. -/
def stripMarker (s : List Char) : List Char :=
  match findMarker s with
  | none => s
  | some suffix => takeBeforeMarker suffix

/-- Model of `utils.base64_to_image`: strip an optional data-URI marker and
base64-decode; the decoded bytes are the serialized image handed to
`Image.open` (`none` models the exception on malformed input). -/
def base64_to_image (s : List Char) : Option (List Nat) :=
  b64decode (stripMarker s)

theorem findMarker_image_to_base64 (p : List Char) :
    findMarker (dataUriMarker ++ p) = some p := by
  simp [findMarker, dataUriMarker, b64Marker, List.isPrefixOf]

theorem mem_of_isPrefixOf {l1 l2 : List Char} {a : Char} (ha : a ∈ l1)
    (h : l1.isPrefixOf l2) : a ∈ l2 := by
  induction l1 generalizing l2 with
  | nil => cases ha
  | cons x rest ih =>
      cases l2 with
      | nil => simp [List.isPrefixOf] at h
      | cons y ys =>
          simp only [List.isPrefixOf, Bool.and_eq_true, beq_iff_eq] at h
          rcases List.mem_cons.mp ha with rfl | hmem
          · exact h.1 ▸ List.mem_cons_self _ _
          · exact List.mem_cons_of_mem _ (ih hmem h.2)

theorem takeBeforeMarker_of_no_comma (l : List Char) (h : ∀ c ∈ l, c ≠ ',') :
    takeBeforeMarker l = l := by
  induction l with
  | nil => rfl
  | cons c rest ih =>
      rw [takeBeforeMarker, if_neg, ih (fun x hx => h x (List.mem_cons_of_mem _ hx))]
      intro hpre
      exact h ',' (mem_of_isPrefixOf (by decide) hpre) rfl

theorem b64encode_no_comma : ∀ (l : List Nat), ∀ c ∈ b64encode l, c ≠ ','
  | [] => by simp [b64encode]
  | [a] => by
      simp only [b64encode, List.mem_cons, List.not_mem_nil, or_false]
      rintro c (rfl | rfl | rfl | rfl) <;> first | exact b64c_ne_comma _ | decide
  | [a, b] => by
      simp only [b64encode, List.mem_cons, List.not_mem_nil, or_false]
      rintro c (rfl | rfl | rfl | rfl) <;> first | exact b64c_ne_comma _ | decide
  | a :: b :: c :: d :: rest => by
      have ih := b64encode_no_comma (d :: rest)
      simp only [b64encode, List.mem_cons] at ih ⊢
      rintro x (rfl | rfl | rfl | rfl | hx)
      · exact b64c_ne_comma _
      · exact b64c_ne_comma _
      · exact b64c_ne_comma _
      · exact b64c_ne_comma _
      · exact ih x hx
  | [a, b, c] => by
      simp only [b64encode, List.mem_cons, List.not_mem_nil, or_false]
      rintro x (rfl | rfl | rfl | rfl)
      all_goals exact b64c_ne_comma _

theorem stripMarker_image_to_base64 (l : List Nat) :
    stripMarker (image_to_base64 l) = b64encode l := by
  unfold stripMarker
  rw [image_to_base64, findMarker_image_to_base64]
  exact takeBeforeMarker_of_no_comma _ (b64encode_no_comma l)

/-- Claim C2: for every binary payload, decoding the encoding gives back the
payload: `base64_to_image (image_to_base64 b) = some b` for arbitrary byte
strings, not only valid PNG encodings — the data-URI marker is stripped and
the base64 text decodes to exactly the original bytes. -/
theorem codec_round_trip (l : List Nat) (h : ∀ x ∈ l, x < 256) :
    base64_to_image (image_to_base64 l) = some l := by
  rw [base64_to_image, stripMarker_image_to_base64, b64decode_b64encode l h]

/-- Witness for C2 at a concrete payload (a PNG signature fragment followed
by bytes that are not a valid PNG stream). -/
theorem codec_round_trip_witness :
    (∀ x ∈ ([137, 80, 78, 71, 13, 10, 26, 10, 0] : List Nat), x < 256) ∧
      base64_to_image (image_to_base64 [137, 80, 78, 71, 13, 10, 26, 10, 0]) =
        some [137, 80, 78, 71, 13, 10, 26, 10, 0] :=
  ⟨by decide, codec_round_trip [137, 80, 78, 71, 13, 10, 26, 10, 0] (by decide)⟩

/-! ## Data model: the `images` table of `app.py` -/

/-- The `params` column written by `/api/generate`
(`json.dumps` of the generation parameters, modelled structurally). -/
structure GenParams where
  negative_prompt : String
  height : Int
  width : Int
  num_inference_steps : Int
  guidance_scale : ℚ
deriving DecidableEq, Repr

/-- The `params` column written by `/api/variations`. -/
structure VarParams where
  negative_prompt : String
  strength : ℚ
  num_inference_steps : Int
  guidance_scale : ℚ
deriving DecidableEq, Repr

/-- A value of the `params` column. -/
inductive ParamsSnapshot where
  | fromGenerate (p : GenParams)
  | fromVariations (p : VarParams)
deriving DecidableEq, Repr

/-- One row of the `images` table (`app.init_db`): `feedback` defaults to 0,
`created_at` defaults to the insertion timestamp, `id` is auto-assigned. -/
structure ImageRow where
  id : Nat
  prompt : String
  image_data : List Char
  created_at : Nat
  seed : Option Int
  params : ParamsSnapshot
  feedback : Int
deriving DecidableEq, Repr

/-- The SQLite database: committed rows plus the AUTOINCREMENT counter and
the `CURRENT_TIMESTAMP` clock (strictly advancing per insert). -/
structure Store where
  rows : List ImageRow
  nextId : Nat
  clock : Nat
deriving DecidableEq, Repr

/-- Model of `INSERT INTO images (prompt, image_data, seed, params) VALUES (?,?,?,?)`
followed by reading `cursor.lastrowid`. -/
def Store.insertRow (st : Store) (prompt : String) (image : List Char)
    (seed : Option Int) (params : ParamsSnapshot) : Nat × Store :=
  let r : ImageRow :=
    { id := st.nextId, prompt := prompt, image_data := image,
      created_at := st.clock, seed := seed, params := params, feedback := 0 }
  (st.nextId,
    { rows := st.rows ++ [r], nextId := st.nextId + 1, clock := st.clock + 1 })

/-! ## InferenceClient: `huggingface_api.HuggingFaceAPI` -/

/-- One upstream HTTP response (the `requests.post` oracle): status code,
body bytes, and the optional `seed` response header. -/
structure HFResponse where
  status : Nat
  content : List Nat
  seedHeader : Option Int
deriving DecidableEq, Repr

/-- The JSON payload built by `HuggingFaceAPI.generate_image`:
`inputs` is the prompt and `parameters` holds the remaining fields;
the `seed` key is present exactly when the field is `some`. -/
structure TextToImagePayload where
  inputs : String
  negative_prompt : String
  height : Int
  width : Int
  num_inference_steps : Int
  guidance_scale : ℚ
  seed : Option Int
deriving DecidableEq, Repr

/-- A successful `generate_image` result dictionary. -/
structure HFGenResult where
  image : List Char
  prompt : String
  seed : Option Int
deriving DecidableEq, Repr

/-- Model of `HuggingFaceAPI.generate_image`: builds the payload, posts it, raises on
a non-200 status, otherwise base64-encodes the body bytes and resolves the
seed (response header first, else the input seed, else absent). The pair
returns the payload that was sent alongside the outcome. -/
def hf_generate_image (prompt negative_prompt : String)
    (height width num_inference_steps : Int) (guidance_scale : ℚ)
    (seed : Option Int) (resp : HFResponse) :
    TextToImagePayload × Except String HFGenResult :=
  let payload : TextToImagePayload :=
    { inputs := prompt, negative_prompt := negative_prompt, height := height,
      width := width, num_inference_steps := num_inference_steps,
      guidance_scale := guidance_scale, seed := seed }
  if resp.status ≠ 200 then
    (payload, .error ("API request failed with status code " ++ toString resp.status))
  else
    let base64_image := image_to_base64 resp.content
    let result_seed := match resp.seedHeader with
      | some h => some h
      | none => seed
    (payload, .ok { image := base64_image, prompt := prompt, seed := result_seed })

/-! ## RequestHandler: `/api/generate` (`app.generate_image`) -/

/-- The parsed JSON body of a `/api/generate` request; `none` fields model
absent keys (`data.get` falls back to its default). -/
structure GenRequest where
  prompt : Option String
  negative_prompt : Option String
  height : Option Int
  width : Option Int
  num_inference_steps : Option Int
  guidance_scale : Option ℚ
  seed : Option Int
deriving DecidableEq, Repr

/-- A `/api/generate` HTTP response. -/
inductive GenerateResponse where
  | success (id : Nat) (image : List Char) (prompt : String) (seed : Option Int)
  | failure (status : Nat) (msg : String)
deriving DecidableEq, Repr

/-- The HTTP status of a `/api/generate` response. -/
def GenerateResponse.statusCode : GenerateResponse → Nat
  | .success _ _ _ _ => 200
  | .failure s _ => s

/-- Model of `app.generate_image` (the `/api/generate` handler). `data = none` models
an absent or empty JSON body (`not data`). The returned `Bool` records
whether `hf_api.generate_image` was invoked. -/
def generate_image_route (data : Option GenRequest) (resp : HFResponse)
    (st : Store) : GenerateResponse × Store × Bool :=
  match data with
  | none => (.failure 400 "Prompt is required", st, false)
  | some d =>
    match d.prompt with
    | none => (.failure 400 "Prompt is required", st, false)
    | some prompt =>
      let negative_prompt := d.negative_prompt.getD ""
      let height := d.height.getD 512
      let width := d.width.getD 512
      let num_inference_steps := d.num_inference_steps.getD 50
      let guidance_scale := d.guidance_scale.getD (15 / 2 : ℚ)
      if height < 128 ∨ height > 1024 ∨ width < 128 ∨ width > 1024 then
        (.failure 400 "Height and width must be between 128 and 1024", st, false)
      else if num_inference_steps < 1 ∨ num_inference_steps > 150 then
        (.failure 400 "Number of inference steps must be between 1 and 150", st, false)
      else if guidance_scale < 1 ∨ guidance_scale > 20 then
        (.failure 400 "Guidance scale must be between 1.0 and 20.0", st, false)
      else
        match hf_generate_image prompt negative_prompt height width
            num_inference_steps guidance_scale d.seed resp with
        | (_, .error msg) => (.failure 500 msg, st, true)
        | (_, .ok result) =>
          let params := ParamsSnapshot.fromGenerate
            { negative_prompt := negative_prompt, height := height, width := width,
              num_inference_steps := num_inference_steps,
              guidance_scale := guidance_scale }
          let inserted := st.insertRow prompt result.image result.seed params
          (.success inserted.1 result.image result.prompt result.seed,
            inserted.2, true)

/-- Claim C1: with a prompt present, the `/api/generate` handler accepts
exactly height and width in [128,1024], inference steps in [1,150] and
guidance scale in [1.0,20.0]: whenever an effective value is outside one of
these bounds the handler answers HTTP 400 with a message, the inference
client is not invoked and the store is unchanged; when every value is in
bounds the handler proceeds to invoke the inference client. -/
theorem generate_validation_bounds (d : GenRequest) (p : String)
    (resp : HFResponse) (st : Store) (hp : d.prompt = some p) :
    (¬ (128 ≤ d.height.getD 512 ∧ d.height.getD 512 ≤ 1024 ∧
        128 ≤ d.width.getD 512 ∧ d.width.getD 512 ≤ 1024 ∧
        1 ≤ d.num_inference_steps.getD 50 ∧ d.num_inference_steps.getD 50 ≤ 150 ∧
        1 ≤ d.guidance_scale.getD (15 / 2) ∧ d.guidance_scale.getD (15 / 2) ≤ 20) →
      ∃ msg, generate_image_route (some d) resp st = (.failure 400 msg, st, false)) ∧
    ((128 ≤ d.height.getD 512 ∧ d.height.getD 512 ≤ 1024 ∧
        128 ≤ d.width.getD 512 ∧ d.width.getD 512 ≤ 1024 ∧
        1 ≤ d.num_inference_steps.getD 50 ∧ d.num_inference_steps.getD 50 ≤ 150 ∧
        1 ≤ d.guidance_scale.getD (15 / 2) ∧ d.guidance_scale.getD (15 / 2) ≤ 20) →
      (generate_image_route (some d) resp st).2.2 = true) := by
  constructor
  · intro hout
    simp only [generate_image_route, hp]
    split_ifs with h1 h2 h3
    · exact ⟨_, rfl⟩
    · exact ⟨_, rfl⟩
    · exact ⟨_, rfl⟩
    · push_neg at h1 h2 h3
      exact absurd ⟨h1.1, h1.2.1, h1.2.2.1, h1.2.2.2, h2.1, h2.2, h3.1, h3.2⟩ hout
  · intro hin
    simp only [generate_image_route, hp]
    split_ifs with h1 h2 h3
    · rcases h1 with h | h | h | h <;> omega
    · rcases h2 with h | h <;> omega
    · rcases h3 with h | h <;> linarith [hin.2.2.2.2.2.2.1, hin.2.2.2.2.2.2.2]
    · split <;> rfl

/-- Witness for C1: a request with `height = 127` (one unit below the bound)
is answered 400, with the store unchanged and no inference call. -/
theorem generate_validation_bounds_witness :
    ∃ msg, generate_image_route
        (some ⟨some "a cat", none, some 127, none, none, none, none⟩)
        ⟨200, [], none⟩ ⟨[], 1, 0⟩ =
      (.failure 400 msg, ⟨[], 1, 0⟩, false) :=
  (generate_validation_bounds ⟨some "a cat", none, some 127, none, none, none, none⟩
    "a cat" ⟨200, [], none⟩ ⟨[], 1, 0⟩ rfl).1 (by decide)

/-- Claim C8: on a successful upstream call, the result seed is the
upstream-reported header seed when present, otherwise the caller-supplied
seed, otherwise absent; and the outgoing payload carries the seed exactly
when the caller supplied one. -/
theorem hf_generate_image_seed (prompt negative_prompt : String)
    (height width steps : Int) (gs : ℚ) (seed : Option Int) (resp : HFResponse)
    (h200 : resp.status = 200) :
    (hf_generate_image prompt negative_prompt height width steps gs seed resp).1.seed
        = seed ∧
    (hf_generate_image prompt negative_prompt height width steps gs seed resp).2 =
      .ok { image := image_to_base64 resp.content, prompt := prompt,
            seed := match resp.seedHeader with | some h => some h | none => seed } := by
  cases hs : resp.seedHeader <;>
    simp [hf_generate_image, h200, hs]

/-- Witness for C8: status 200, header seed 42 overriding input seed 7. -/
theorem hf_generate_image_seed_witness :
    (hf_generate_image "x" "" 512 512 50 (15 / 2) (some 7)
        ⟨200, [1, 2], some 42⟩).1.seed = some 7 ∧
    (hf_generate_image "x" "" 512 512 50 (15 / 2) (some 7)
        ⟨200, [1, 2], some 42⟩).2 =
      .ok { image := image_to_base64 [1, 2], prompt := "x", seed := some 42 } :=
  hf_generate_image_seed "x" "" 512 512 50 (15 / 2) (some 7)
    ⟨200, [1, 2], some 42⟩ rfl

/-- Counterexample to claim C9: a request whose prompt is the empty string
passes validation — the handler invokes the inference client, answers 200,
and a record with an empty prompt is created. -/
theorem generate_empty_prompt_counterexample :
    ((generate_image_route (some ⟨some "", none, none, none, none, none, none⟩)
        ⟨200, [0], none⟩ ⟨[], 1, 0⟩).1.statusCode = 200) ∧
    ((generate_image_route (some ⟨some "", none, none, none, none, none, none⟩)
        ⟨200, [0], none⟩ ⟨[], 1, 0⟩).2.2 = true) ∧
    ((generate_image_route (some ⟨some "", none, none, none, none, none, none⟩)
        ⟨200, [0], none⟩ ⟨[], 1, 0⟩).2.1.rows.map ImageRow.prompt = [""]) := by
  refine ⟨?_, ?_, ?_⟩ <;>
    norm_num [generate_image_route, hf_generate_image, Store.insertRow,
      GenerateResponse.statusCode]

/-- Claim C9 amended: a generate request with an absent (or empty) body, or
whose body lacks the `prompt` key, is rejected with 400 and no inference or
store call; a present but empty prompt string is not rejected by this
check. -/
theorem generate_prompt_presence (data : Option GenRequest) (resp : HFResponse)
    (st : Store) (h : data = none ∨ ∃ d, data = some d ∧ d.prompt = none) :
    generate_image_route data resp st =
      (.failure 400 "Prompt is required", st, false) := by
  rcases h with rfl | ⟨d, rfl, hd⟩
  · rfl
  · simp [generate_image_route, hd]

/-- Witness for the amended C9 at an absent body. -/
theorem generate_prompt_presence_witness :
    generate_image_route none ⟨200, [], none⟩ ⟨[], 1, 0⟩ =
      (.failure 400 "Prompt is required", ⟨[], 1, 0⟩, false) :=
  generate_prompt_presence none ⟨200, [], none⟩ ⟨[], 1, 0⟩ (Or.inl rfl)

/-! ## `/api/feedback` (`app.save_feedback`) and `/api/images/<id>` -/

/-- A JSON scalar as delivered by Flask's `request.json`. The Python type
distinctions matter here: `bool` is a subclass of `int`. -/
inductive JsonVal where
  | jint (n : Int)
  | jbool (b : Bool)
  | jfloat (q : ℚ)
  | jstr (s : String)
  | jnull
deriving DecidableEq, Repr

/-- Python `isinstance(v, int)`: true for `int` and for `bool`. -/
def JsonVal.isPyInt : JsonVal → Bool
  | .jint _ => true
  | .jbool _ => true
  | _ => false

/-- The integer underlying a Python `int` (for `bool`: `True == 1` and
`False == 0`); order comparisons and the SQLite parameter adapter both use
this value. Non-int values never reach either in `save_feedback`. -/
def JsonVal.intValue : JsonVal → Int
  | .jint n => n
  | .jbool b => if b then 1 else 0
  | _ => 0

/-- Python `==` between a JSON value and an integer constant. -/
def JsonVal.eqNum (v : JsonVal) (k : Int) : Prop :=
  match v with
  | .jint n => n = k
  | .jbool b => (if b then (1 : Int) else 0) = k
  | .jfloat q => q = (k : ℚ)
  | .jstr _ => False
  | .jnull => False

/-- The parsed body of a `/api/feedback` request; `none` models an absent
key. -/
structure FeedbackRequest where
  image_id : Option Int
  feedback : Option JsonVal
deriving DecidableEq, Repr

/-- A `/api/feedback` HTTP response (`{success: true}` or an error). -/
inductive FeedbackResponse where
  | success
  | failure (status : Nat) (msg : String)
deriving DecidableEq, Repr

/-- Model of `UPDATE images SET feedback = ? WHERE id = ?` applied to the rows. -/
def updateFeedbackRows (rows : List ImageRow) (image_id : Int) (fb : Int) :
    List ImageRow :=
  rows.map fun r => if ((r.id : Int) == image_id) then { r with feedback := fb } else r

/-- Model of `cursor.rowcount` of that UPDATE: how many rows matched the WHERE. -/
def feedbackRowcount (rows : List ImageRow) (image_id : Int) : Nat :=
  (rows.filter fun r => (r.id : Int) == image_id).length

/-- Model of `app.save_feedback` (the `/api/feedback` handler): requires both keys,
validates the feedback value (`isinstance(feedback, int)` and
`-1 <= feedback <= 1`) before touching storage, then runs the UPDATE and
answers 404 when zero rows were affected. -/
def save_feedback_route (data : Option FeedbackRequest) (st : Store) :
    FeedbackResponse × Store :=
  match data with
  | none => (.failure 400 "Image ID and feedback are required", st)
  | some d =>
    match d.image_id, d.feedback with
    | some image_id, some feedback =>
        if ¬ feedback.isPyInt ∨ feedback.intValue < -1 ∨ feedback.intValue > 1 then
          (.failure 400 "Feedback must be -1, 0, or 1", st)
        else
          let rows2 := updateFeedbackRows st.rows image_id feedback.intValue
          if feedbackRowcount st.rows image_id = 0 then
            (.failure 404 "Image not found", { st with rows := rows2 })
          else
            (.success, { st with rows := rows2 })
    | _, _ => (.failure 400 "Image ID and feedback are required", st)

/-- Model of `app.get_image` (`GET /api/images/<id>`): `SELECT * FROM images WHERE
id = ?` with `fetchone`; `some` is the rendered row, `none` the 404. -/
def get_image_route (image_id : Int) (st : Store) : Option ImageRow :=
  st.rows.find? fun r => (r.id : Int) == image_id

theorem updateFeedbackRows_cons (x : ImageRow) (rest : List ImageRow)
    (idv fb : Int) :
    updateFeedbackRows (x :: rest) idv fb =
      (if ((x.id : Int) == idv) then { x with feedback := fb } else x) ::
        updateFeedbackRows rest idv fb := rfl

theorem find?_updateFeedbackRows (rows : List ImageRow) (idv : Int) (fb : Int)
    (r : ImageRow) (h : rows.find? (fun x => (x.id : Int) == idv) = some r) :
    (updateFeedbackRows rows idv fb).find? (fun x => (x.id : Int) == idv) =
      some { r with feedback := fb } := by
  induction rows with
  | nil => simp at h
  | cons x rest ih =>
      rw [updateFeedbackRows_cons]
      by_cases hx : ((x.id : Int) == idv) = true
      · simp only [List.find?_cons, hx] at h
        injection h with h
        subst h
        rw [if_pos hx]
        simp [List.find?_cons, hx]
      · rw [Bool.not_eq_true] at hx
        simp only [List.find?_cons, hx] at h
        rw [if_neg (by simp [hx])]
        simp only [List.find?_cons, hx]
        exact ih h

/-- Claim C6: updating feedback for an id not present in the store answers
404 and leaves the table unchanged; updating an existing id with a valid
value succeeds, and a subsequent get of that id shows the new feedback value
with every other field of the record unchanged. -/
theorem save_feedback_semantics (st : Store) (image_id : Int) (v : JsonVal)
    (hv : v.isPyInt = true ∧ -1 ≤ v.intValue ∧ v.intValue ≤ 1) :
    ((∀ r ∈ st.rows, (r.id : Int) ≠ image_id) →
      save_feedback_route (some ⟨some image_id, some v⟩) st =
        (.failure 404 "Image not found", st)) ∧
    (∀ r, get_image_route image_id st = some r →
      (save_feedback_route (some ⟨some image_id, some v⟩) st).1 = .success ∧
      get_image_route image_id
          (save_feedback_route (some ⟨some image_id, some v⟩) st).2 =
        some { r with feedback := v.intValue }) := by
  have hvalid : ¬(¬ v.isPyInt = true ∨ v.intValue < -1 ∨ v.intValue > 1) := by
    push_neg
    exact ⟨hv.1, by omega, by omega⟩
  constructor
  · intro hno
    have hcount : feedbackRowcount st.rows image_id = 0 := by
      unfold feedbackRowcount
      rw [List.length_eq_zero, List.filter_eq_nil_iff]
      intro r hr
      simpa using hno r hr
    have hrows : updateFeedbackRows st.rows image_id v.intValue = st.rows := by
      unfold updateFeedbackRows
      rw [List.map_congr_left (fun r hr => if_neg (by simpa using hno r hr)),
        List.map_id']
    simp only [save_feedback_route]
    rw [if_neg hvalid, hrows, if_pos hcount]
  · intro r hr
    unfold get_image_route at hr
    have hmem := List.mem_of_find?_eq_some hr
    have hpred := List.find?_some hr
    have hcount : ¬ feedbackRowcount st.rows image_id = 0 := by
      unfold feedbackRowcount
      intro h0
      rw [List.length_eq_zero] at h0
      have hin : r ∈ st.rows.filter (fun x => (x.id : Int) == image_id) :=
        List.mem_filter.mpr ⟨hmem, hpred⟩
      rw [h0] at hin
      exact absurd hin (List.not_mem_nil _)
    constructor
    · simp only [save_feedback_route]
      rw [if_neg hvalid, if_neg hcount]
    · simp only [save_feedback_route]
      rw [if_neg hvalid, if_neg hcount]
      exact find?_updateFeedbackRows st.rows image_id v.intValue r hr

/-- Witness for C6 on a one-row store: part (a) at an absent id 2, part (b)
at the present id 1 with feedback value 1. -/
theorem save_feedback_semantics_witness :
    (save_feedback_route (some ⟨some 2, some (.jint 1)⟩)
        ⟨[⟨1, "p", [], 0, none, .fromGenerate ⟨"", 512, 512, 50, 8⟩, 0⟩], 2, 1⟩ =
      (.failure 404 "Image not found",
        ⟨[⟨1, "p", [], 0, none, .fromGenerate ⟨"", 512, 512, 50, 8⟩, 0⟩], 2, 1⟩)) ∧
    (get_image_route 1
        (save_feedback_route (some ⟨some 1, some (.jint 1)⟩)
          ⟨[⟨1, "p", [], 0, none, .fromGenerate ⟨"", 512, 512, 50, 8⟩, 0⟩], 2, 1⟩).2 =
      some ⟨1, "p", [], 0, none, .fromGenerate ⟨"", 512, 512, 50, 8⟩, 1⟩) := by
  constructor
  · exact (save_feedback_semantics
      ⟨[⟨1, "p", [], 0, none, .fromGenerate ⟨"", 512, 512, 50, 8⟩, 0⟩], 2, 1⟩ 2 (.jint 1)
      ⟨rfl, by decide, by decide⟩).1 (by decide)
  · exact ((save_feedback_semantics
      ⟨[⟨1, "p", [], 0, none, .fromGenerate ⟨"", 512, 512, 50, 8⟩, 0⟩], 2, 1⟩ 1 (.jint 1)
      ⟨rfl, by decide, by decide⟩).2
      ⟨1, "p", [], 0, none, .fromGenerate ⟨"", 512, 512, 50, 8⟩, 0⟩ rfl).2

/-- Claim C7: every feedback value that is not numerically -1, 0 or 1 —
whether an out-of-range integer, a float, a string or null — is rejected
with HTTP 400 before any storage operation: the store is returned
untouched. -/
theorem save_feedback_rejects_outside (st : Store) (image_id : Int)
    (v : JsonVal) (h1 : ¬ v.eqNum (-1)) (h0 : ¬ v.eqNum 0) (hp1 : ¬ v.eqNum 1) :
    save_feedback_route (some ⟨some image_id, some v⟩) st =
      (.failure 400 "Feedback must be -1, 0, or 1", st) := by
  have hcond : ¬ v.isPyInt = true ∨ v.intValue < -1 ∨ v.intValue > 1 := by
    cases v with
    | jint n =>
        right
        simp only [JsonVal.eqNum] at h1 h0 hp1
        simp only [JsonVal.intValue]
        omega
    | jbool b =>
        cases b
        · exact absurd rfl h0
        · exact absurd rfl hp1
    | jfloat q => left; simp [JsonVal.isPyInt]
    | jstr s => left; simp [JsonVal.isPyInt]
    | jnull => left; simp [JsonVal.isPyInt]
  simp only [save_feedback_route]
  rw [if_pos hcond]

/-- Witness for C7: the integer 2 is rejected with 400 and the store stays
untouched. -/
theorem save_feedback_rejects_outside_witness :
    save_feedback_route (some ⟨some 1, some (.jint 2)⟩) ⟨[], 1, 0⟩ =
      (.failure 400 "Feedback must be -1, 0, or 1", ⟨[], 1, 0⟩) :=
  save_feedback_rejects_outside ⟨[], 1, 0⟩ 1 (.jint 2)
    (by simp [JsonVal.eqNum]) (by simp [JsonVal.eqNum]) (by simp [JsonVal.eqNum])

/-- Claim C10: a Python boolean feedback value passes the
integer-membership check (`bool` being a subclass of `int` with values 1
and 0), is never rejected with the 400 validation error, and the request is
processed exactly like the corresponding integer. -/
theorem save_feedback_bool_accepted (b : Bool) (image_id : Int) (st : Store) :
    (JsonVal.jbool b).isPyInt = true ∧
    save_feedback_route (some ⟨some image_id, some (.jbool b)⟩) st =
      save_feedback_route (some ⟨some image_id, some (.jint (if b then 1 else 0))⟩) st ∧
    (save_feedback_route (some ⟨some image_id, some (.jbool b)⟩) st).1 ≠
      .failure 400 "Feedback must be -1, 0, or 1" := by
  refine ⟨rfl, ?_, ?_⟩
  · cases b <;> rfl
  · simp only [save_feedback_route]
    rw [if_neg (by cases b <;> norm_num [JsonVal.isPyInt, JsonVal.intValue])]
    split <;> simp

/-! ## `GET /api/images` (`app.get_images`) -/

/-- The summary columns selected by `GET /api/images`: every field except
`params`. -/
structure ImageSummary where
  id : Nat
  prompt : String
  image_data : List Char
  created_at : Nat
  seed : Option Int
  feedback : Int
deriving DecidableEq, Repr

/-- The summary projection of a row. -/
def ImageRow.summary (r : ImageRow) : ImageSummary :=
  { id := r.id, prompt := r.prompt, image_data := r.image_data,
    created_at := r.created_at, seed := r.seed, feedback := r.feedback }

/-- Model of `ORDER BY created_at DESC`, realized as insertion sort. SQLite leaves
the relative order of equal keys unspecified; the claim below only concerns
stores with pairwise distinct timestamps, where every correct sort agrees. -/
def insertDesc (r : ImageRow) : List ImageRow → List ImageRow
  | [] => [r]
  | x :: rest =>
      if x.created_at ≤ r.created_at then r :: x :: rest
      else x :: insertDesc r rest

/-- The sorted row list, newest first. -/
def sortByCreatedDesc : List ImageRow → List ImageRow
  | [] => []
  | r :: rest => insertDesc r (sortByCreatedDesc rest)

/-- A `GET /api/images` HTTP response. -/
inductive ListImagesResponse where
  | ok (items : List ImageSummary)
  | failure (status : Nat) (msg : String)
deriving DecidableEq, Repr

/-- Model of `app.get_images`: validates `limit ∈ [1,100]` and `offset ≥ 0`
(defaults 20 and 0), then runs `SELECT id, prompt, image_data, created_at,
seed, feedback FROM images ORDER BY created_at DESC LIMIT ? OFFSET ?`. -/
def get_images_route (limitArg offsetArg : Option Int) (st : Store) :
    ListImagesResponse :=
  let limit := limitArg.getD 20
  let offset := offsetArg.getD 0
  if limit < 1 ∨ limit > 100 then .failure 400 "Limit must be between 1 and 100"
  else if offset < 0 then .failure 400 "Offset must be non-negative"
  else .ok ((((sortByCreatedDesc st.rows).drop offset.toNat).take limit.toNat).map
    ImageRow.summary)

theorem insertDesc_smallest (r : ImageRow) (l : List ImageRow)
    (h : ∀ y ∈ l, r.created_at < y.created_at) : insertDesc r l = l ++ [r] := by
  induction l with
  | nil => rfl
  | cons x rest ih =>
      simp only [insertDesc]
      rw [if_neg (by have := h x (List.mem_cons_self _ _); omega),
        ih (fun y hy => h y (List.mem_cons_of_mem _ hy))]
      rfl

theorem sortByCreatedDesc_ascending (l : List ImageRow)
    (h : l.Pairwise (fun u v => u.created_at < v.created_at)) :
    sortByCreatedDesc l = l.reverse := by
  induction l with
  | nil => rfl
  | cons x rest ih =>
      rw [List.pairwise_cons] at h
      simp only [sortByCreatedDesc]
      rw [ih h.2, insertDesc_smallest x _ (fun y hy => h.1 y (List.mem_reverse.mp hy)),
        List.reverse_cons]

/-- Claim C5: on a store holding exactly five records inserted in order
A,B,C,D,E (strictly increasing `created_at`), `listImages(limit=2,
offset=0)` returns the summaries of E and D, and `listImages(limit=2,
offset=2)` those of C and B — newest-first pagination bounded by limit and
offset. -/
theorem get_images_pagination (a b c d e : ImageRow) (st : Store)
    (hrows : st.rows = [a, b, c, d, e])
    (h1 : a.created_at < b.created_at) (h2 : b.created_at < c.created_at)
    (h3 : c.created_at < d.created_at) (h4 : d.created_at < e.created_at) :
    get_images_route (some 2) (some 0) st = .ok [e.summary, d.summary] ∧
    get_images_route (some 2) (some 2) st = .ok [c.summary, b.summary] := by
  have hpw : List.Pairwise (fun u v => u.created_at < v.created_at)
      [a, b, c, d, e] := by
    refine List.Pairwise.cons (fun y hy => ?_)
      (List.Pairwise.cons (fun y hy => ?_)
        (List.Pairwise.cons (fun y hy => ?_)
          (List.Pairwise.cons (fun y hy => ?_)
            (List.Pairwise.cons (fun y hy => absurd hy (List.not_mem_nil y))
              List.Pairwise.nil))))
    · fin_cases hy <;> omega
    · fin_cases hy <;> omega
    · fin_cases hy <;> omega
    · fin_cases hy
      omega
  have hsort : sortByCreatedDesc st.rows = [e, d, c, b, a] := by
    rw [hrows, sortByCreatedDesc_ascending _ hpw]
    rfl
  constructor <;>
    simp [get_images_route, hsort, Int.toNat_ofNat]

/-- Witness for C5: five concrete rows with timestamps 0..4. -/
theorem get_images_pagination_witness :
    get_images_route (some 2) (some 0)
        ⟨[⟨1, "a", [], 0, none, .fromGenerate ⟨"", 512, 512, 50, 8⟩, 0⟩,
          ⟨2, "b", [], 1, none, .fromGenerate ⟨"", 512, 512, 50, 8⟩, 0⟩,
          ⟨3, "c", [], 2, none, .fromGenerate ⟨"", 512, 512, 50, 8⟩, 0⟩,
          ⟨4, "d", [], 3, none, .fromGenerate ⟨"", 512, 512, 50, 8⟩, 0⟩,
          ⟨5, "e", [], 4, none, .fromGenerate ⟨"", 512, 512, 50, 8⟩, 0⟩], 6, 5⟩ =
      .ok [⟨5, "e", [], 4, none, 0⟩, ⟨4, "d", [], 3, none, 0⟩] ∧
    get_images_route (some 2) (some 2)
        ⟨[⟨1, "a", [], 0, none, .fromGenerate ⟨"", 512, 512, 50, 8⟩, 0⟩,
          ⟨2, "b", [], 1, none, .fromGenerate ⟨"", 512, 512, 50, 8⟩, 0⟩,
          ⟨3, "c", [], 2, none, .fromGenerate ⟨"", 512, 512, 50, 8⟩, 0⟩,
          ⟨4, "d", [], 3, none, .fromGenerate ⟨"", 512, 512, 50, 8⟩, 0⟩,
          ⟨5, "e", [], 4, none, .fromGenerate ⟨"", 512, 512, 50, 8⟩, 0⟩], 6, 5⟩ =
      .ok [⟨3, "c", [], 2, none, 0⟩, ⟨2, "b", [], 1, none, 0⟩] :=
  get_images_pagination
    ⟨1, "a", [], 0, none, .fromGenerate ⟨"", 512, 512, 50, 8⟩, 0⟩
    ⟨2, "b", [], 1, none, .fromGenerate ⟨"", 512, 512, 50, 8⟩, 0⟩
    ⟨3, "c", [], 2, none, .fromGenerate ⟨"", 512, 512, 50, 8⟩, 0⟩
    ⟨4, "d", [], 3, none, .fromGenerate ⟨"", 512, 512, 50, 8⟩, 0⟩
    ⟨5, "e", [], 4, none, .fromGenerate ⟨"", 512, 512, 50, 8⟩, 0⟩
    _ rfl (by decide) (by decide) (by decide) (by decide)

/-! ## Variations: `HuggingFaceAPI.generate_variations` and
`/api/variations` (`app.generate_variations`) -/

/-- One upstream img2img call outcome: the HTTP response plus the value the
`random.randint(0, 2**32 - 1)` fallback would produce for this call. -/
structure Img2ImgCall where
  status : Nat
  content : List Nat
  seedHeader : Option Int
  randSeed : Nat
deriving DecidableEq, Repr

/-- One element of the list returned by
`HuggingFaceAPI.generate_variations`. -/
structure VariationItem where
  image : List Char
  prompt : String
  seed : Int
deriving DecidableEq, Repr

/-- The call loop of `HuggingFaceAPI.generate_variations`: `n` remaining
upstream calls starting at call index `i`. The first non-200 response
raises, aborting the whole batch (`Except.error`). Each success carries the
header seed when present, otherwise the synthesized random seed. -/
def hf_generate_variations_from (calls : Nat → Img2ImgCall) (prompt : String) :
    Nat → Nat → Except String (List VariationItem)
  | _, 0 => .ok []
  | i, n + 1 =>
      let c := calls i
      if c.status ≠ 200 then
        .error ("API request failed with status code " ++ toString c.status)
      else
        match hf_generate_variations_from calls prompt (i + 1) n with
        | .error e => .error e
        | .ok rest =>
            .ok ({ image := image_to_base64 c.content, prompt := prompt,
                   seed := match c.seedHeader with
                     | some h => h
                     | none => (c.randSeed : Int) } :: rest)

/-- A single result row of `/api/variations` as returned to the client. -/
structure VariationOut where
  id : Nat
  image : List Char
  prompt : String
  seed : Int
deriving DecidableEq, Repr

/-- A `/api/variations` HTTP response. -/
inductive VariationsResponse where
  | ok (items : List VariationOut)
  | failure (status : Nat) (msg : String)
deriving DecidableEq, Repr

/-- The parsed body of a `/api/variations` request; `none` fields model
absent keys. -/
structure VarRequest where
  image : Option (List Char)
  prompt : Option String
  negative_prompt : Option String
  strength : Option ℚ
  num_inference_steps : Option Int
  guidance_scale : Option ℚ
  num_variations : Option Int
deriving DecidableEq, Repr

/-- The per-result insert loop of `app.generate_variations`, run inside one
`with sqlite3.connect(...)` block with `conn.commit()` only after the loop.
`insertFails k = true` means the k-th INSERT raises; the `none` result
models the exception propagating, upon which the connection context manager
rolls the open transaction back (Python's `sqlite3.Connection.__exit__`
commits on normal exit and rolls back on an exception). On success it
returns the rows to commit and the accumulated response payload. -/
def variations_inserts (params : ParamsSnapshot) (insertFails : Nat → Bool) :
    List VariationItem → Nat → Nat → Nat →
      Option (List ImageRow × List VariationOut)
  | [], _, _, _ => some ([], [])
  | item :: rest, idv, ck, k =>
      if insertFails k then none
      else
        match variations_inserts params insertFails rest (idv + 1) (ck + 1) (k + 1) with
        | none => none
        | some (rows, outs) =>
            some ({ id := idv, prompt := item.prompt, image_data := item.image,
                    created_at := ck, seed := some item.seed, params := params,
                    feedback := 0 } :: rows,
              ({ id := idv, image := item.image, prompt := item.prompt,
                 seed := item.seed } : VariationOut) :: outs)

/-- Model of `app.generate_variations` (the `/api/variations` handler): requires an
`image` field, validates `strength ∈ [0.0,1.0]` and `num_variations ∈
[1,10]`, decodes the image, runs the upstream batch, then inserts one row
per result inside a single connection context and commits after the loop;
an inference, decode or storage failure is caught and reported as 500 with
the committed store unchanged. -/
def generate_variations_route (data : Option VarRequest)
    (calls : Nat → Img2ImgCall) (insertFails : Nat → Bool) (st : Store) :
    VariationsResponse × Store :=
  match data with
  | none => (.failure 400 "Image is required", st)
  | some d =>
    match d.image with
    | none => (.failure 400 "Image is required", st)
    | some image_data =>
      let prompt := d.prompt.getD ""
      let strength := d.strength.getD (3 / 4 : ℚ)
      let num_variations := d.num_variations.getD 4
      if strength < 0 ∨ strength > 1 then
        (.failure 400 "Strength must be between 0.0 and 1.0", st)
      else if num_variations < 1 ∨ num_variations > 10 then
        (.failure 400 "Number of variations must be between 1 and 10", st)
      else
        match base64_to_image image_data with
        | none => (.failure 500 "Invalid base64 image", st)
        | some _decoded =>
          match hf_generate_variations_from calls prompt 0 num_variations.toNat with
          | .error e => (.failure 500 e, st)
          | .ok results =>
            let params := ParamsSnapshot.fromVariations
              { negative_prompt := d.negative_prompt.getD "",
                strength := strength,
                num_inference_steps := d.num_inference_steps.getD 50,
                guidance_scale := d.guidance_scale.getD (15 / 2 : ℚ) }
            match variations_inserts params insertFails results st.nextId st.clock 0 with
            | none => (.failure 500 "Storage failure", st)
            | some (rows, outs) =>
                (.ok outs,
                  { rows := st.rows ++ rows, nextId := st.nextId + rows.length,
                    clock := st.clock + rows.length })

theorem hf_variations_ok (calls : Nat → Img2ImgCall) (prompt : String) :
    ∀ (n i : Nat), (∀ k, i ≤ k → k < i + n → (calls k).status = 200) →
    ∃ items, hf_generate_variations_from calls prompt i n = .ok items ∧
      items.length = n
  | 0, i, _ => ⟨[], rfl, rfl⟩
  | n + 1, i, h => by
      have hi : (calls i).status = 200 := h i (Nat.le_refl i) (by omega)
      obtain ⟨items, heq, hlen⟩ := hf_variations_ok calls prompt n (i + 1)
        (fun k hk1 hk2 => h k (by omega) (by omega))
      refine ⟨{ image := image_to_base64 (calls i).content, prompt := prompt,
                seed := match (calls i).seedHeader with
                  | some hd => hd
                  | none => ((calls i).randSeed : Int) } :: items, ?_, ?_⟩
      · simp only [hf_generate_variations_from]
        rw [if_neg (fun hne => hne hi), heq]
      · simp [hlen]

theorem hf_variations_fail (calls : Nat → Img2ImgCall) (prompt : String) :
    ∀ (n i : Nat), (∃ k, i ≤ k ∧ k < i + n ∧ (calls k).status ≠ 200) →
    ∃ msg, hf_generate_variations_from calls prompt i n = .error msg
  | 0, _, h => absurd h (by rintro ⟨k, h1, h2, _⟩; omega)
  | n + 1, i, ⟨k, hk1, hk2, hk3⟩ => by
      by_cases hi : (calls i).status = 200
      · have hki : k ≠ i := fun he => hk3 (he ▸ hi)
        obtain ⟨msg, hmsg⟩ := hf_variations_fail calls prompt n (i + 1)
          ⟨k, by omega, by omega, hk3⟩
        refine ⟨msg, ?_⟩
        simp only [hf_generate_variations_from]
        rw [if_neg (fun hne => hne hi), hmsg]
      · refine ⟨"API request failed with status code " ++
          toString (calls i).status, ?_⟩
        simp only [hf_generate_variations_from]
        rw [if_pos hi]

theorem variations_inserts_ok (params : ParamsSnapshot)
    (insertFails : Nat → Bool) (hok : ∀ k, insertFails k = false) :
    ∀ (items : List VariationItem) (idv ck k : Nat),
    ∃ rows outs, variations_inserts params insertFails items idv ck k =
        some (rows, outs) ∧
      rows.length = items.length ∧
      (∀ r ∈ rows, r.params = params) ∧
      rows.map ImageRow.id = List.range' idv items.length
  | [], idv, ck, k => ⟨[], [], rfl, rfl, by simp, by simp⟩
  | item :: rest, idv, ck, k => by
      obtain ⟨rows, outs, heq, hlen, hparams, hids⟩ :=
        variations_inserts_ok params insertFails hok rest (idv + 1) (ck + 1) (k + 1)
      refine ⟨{ id := idv, prompt := item.prompt, image_data := item.image,
                created_at := ck, seed := some item.seed, params := params,
                feedback := 0 } :: rows,
        ({ id := idv, image := item.image, prompt := item.prompt,
           seed := item.seed } : VariationOut) :: outs, ?_, ?_, ?_, ?_⟩
      · simp only [variations_inserts]
        rw [if_neg (by simp [hok k]), heq]
      · simp [hlen]
      · intro r hr
        rcases List.mem_cons.mp hr with rfl | hr
        · rfl
        · exact hparams r hr
      · simp only [List.map_cons, List.length_cons, List.range'_succ, hids]

theorem variations_inserts_fail (params : ParamsSnapshot)
    (insertFails : Nat → Bool) :
    ∀ (items : List VariationItem) (idv ck k j : Nat),
      j < items.length → insertFails (k + j) = true →
      variations_inserts params insertFails items idv ck k = none
  | [], _, _, _, _, hj, _ => absurd hj (by simp)
  | item :: rest, idv, ck, k, j, hj, hf => by
      by_cases h0 : insertFails k = true
      · simp only [variations_inserts]
        rw [if_pos h0]
      · have hj0 : j ≠ 0 := fun he => h0 (by rw [← Nat.add_zero k, ← he]; exact hf)
        have hrec := variations_inserts_fail params insertFails rest
          (idv + 1) (ck + 1) (k + 1) (j - 1)
          (by simp only [List.length_cons] at hj; omega)
          (by have harg : k + 1 + (j - 1) = k + j := by omega
              rw [harg]; exact hf)
        simp only [variations_inserts]
        rw [if_neg h0, hrec]

/-- Claim C3: for a valid variations request with `num_variations = N` and a
decodable image: if any of the N upstream image-to-image calls answers a
non-success status, the whole operation aborts with a 500 inference error
and zero rows from the request are persisted; if all N calls succeed (and
storage works), exactly N rows are persisted, with pairwise distinct ids,
each row carrying its own `params` snapshot of the parameters used. -/
theorem variations_all_or_nothing (d : VarRequest) (img : List Char)
    (bytes : List Nat) (calls : Nat → Img2ImgCall) (insertFails : Nat → Bool)
    (st : Store)
    (himg : d.image = some img) (hdec : base64_to_image img = some bytes)
    (hstr : ¬ (d.strength.getD (3 / 4) < 0 ∨ d.strength.getD (3 / 4) > 1))
    (hnum : ¬ (d.num_variations.getD 4 < 1 ∨ d.num_variations.getD 4 > 10)) :
    ((∃ k, k < (d.num_variations.getD 4).toNat ∧ (calls k).status ≠ 200) →
      ∃ msg, generate_variations_route (some d) calls insertFails st =
        (.failure 500 msg, st)) ∧
    ((∀ k, k < (d.num_variations.getD 4).toNat → (calls k).status = 200) →
      (∀ k, insertFails k = false) →
      ∃ rows outs,
        generate_variations_route (some d) calls insertFails st =
          (.ok outs,
            { rows := st.rows ++ rows, nextId := st.nextId + rows.length,
              clock := st.clock + rows.length }) ∧
        rows.length = (d.num_variations.getD 4).toNat ∧
        (rows.map ImageRow.id).Nodup ∧
        (∀ r ∈ rows, r.params = ParamsSnapshot.fromVariations
          { negative_prompt := d.negative_prompt.getD "",
            strength := d.strength.getD (3 / 4),
            num_inference_steps := d.num_inference_steps.getD 50,
            guidance_scale := d.guidance_scale.getD (15 / 2) })) := by
  constructor
  · rintro ⟨k, hk, hk200⟩
    obtain ⟨msg, hmsg⟩ := hf_variations_fail calls (d.prompt.getD "")
      (d.num_variations.getD 4).toNat 0 ⟨k, by omega, by omega, hk200⟩
    refine ⟨msg, ?_⟩
    simp only [generate_variations_route, himg]
    rw [if_neg hstr, if_neg hnum, hdec, hmsg]
  · intro hcalls hstore
    obtain ⟨items, hitems, hilen⟩ := hf_variations_ok calls (d.prompt.getD "")
      (d.num_variations.getD 4).toNat 0 (fun k hk1 hk2 => hcalls k (by omega))
    obtain ⟨rows, outs, hins, hlen, hparams, hids⟩ :=
      variations_inserts_ok
        (ParamsSnapshot.fromVariations
          { negative_prompt := d.negative_prompt.getD "",
            strength := d.strength.getD (3 / 4),
            num_inference_steps := d.num_inference_steps.getD 50,
            guidance_scale := d.guidance_scale.getD (15 / 2) })
        insertFails hstore items st.nextId st.clock 0
    refine ⟨rows, outs, ?_, by omega, ?_, hparams⟩
    · simp only [generate_variations_route, himg]
      rw [if_neg hstr, if_neg hnum, hdec, hitems]
      simp only [hins]
    · rw [hids]
      exact List.nodup_range' _ _ _ (by omega)

/-- Witness for C3, success side: one variation on an empty image payload,
all calls succeeding, storage working. -/
theorem variations_all_or_nothing_witness :
    ∃ rows outs,
      generate_variations_route
          (some ⟨some [], some "", none, some 1, some 50, some 8, some 1⟩)
          (fun _ => ⟨200, [], none, 5⟩) (fun _ => false) ⟨[], 1, 0⟩ =
        (.ok outs,
          { rows := [] ++ rows, nextId := 1 + rows.length,
            clock := 0 + rows.length }) ∧
      rows.length = (1 : Int).toNat ∧
      (rows.map ImageRow.id).Nodup ∧
      (∀ r ∈ rows, r.params = ParamsSnapshot.fromVariations
        { negative_prompt := "", strength := 1,
          num_inference_steps := 50, guidance_scale := 8 }) :=
  (variations_all_or_nothing
      ⟨some [], some "", none, some 1, some 50, some 8, some 1⟩ [] []
      (fun _ => ⟨200, [], none, 5⟩) (fun _ => false) ⟨[], 1, 0⟩
      rfl rfl (by norm_num) (by norm_num)).2
    (fun k _ => rfl) (fun k => rfl)

/-- Counterexample to claim C4: a concrete variations run (two variations,
both upstream calls succeeding) where the first INSERT succeeds and the
second raises; the already-inserted first row does not remain persisted —
the transaction rolls back and the committed store is exactly the
pre-request store with zero rows. -/
theorem variations_no_rollback_counterexample :
    generate_variations_route
        (some ⟨some [], some "", none, some 1, some 50, some 8, some 2⟩)
        (fun _ => ⟨200, [], none, 5⟩) (fun k => k == 1) ⟨[], 1, 0⟩ =
      (.failure 500 "Storage failure", ⟨[], 1, 0⟩) := by
  obtain ⟨items, hitems, hilen⟩ := hf_variations_ok
    (fun _ => ⟨200, [], none, 5⟩) "" (Int.toNat 2) 0 (fun k _ _ => rfl)
  have hnone := variations_inserts_fail
    (ParamsSnapshot.fromVariations
      { negative_prompt := "", strength := 1,
        num_inference_steps := 50, guidance_scale := 8 })
    (fun k => k == 1) items 1 0 0 1 (by omega) rfl
  simp only [generate_variations_route, Option.getD_some, Option.getD_none]
  rw [if_neg (by norm_num), if_neg (by norm_num)]
  rw [show base64_to_image [] = some [] from rfl, hitems]
  simp only [hnone]

/-- Claim C4 amended: in the variations path, when the storage layer fails
mid-loop after some inserts already succeeded, the connection context
manager rolls the open transaction back: the error is reported to the
caller as a 500 and no row from that request is persisted — the committed
store is exactly the pre-request store. -/
theorem variations_storage_failure_rollback (d : VarRequest) (img : List Char)
    (bytes : List Nat) (calls : Nat → Img2ImgCall) (insertFails : Nat → Bool)
    (st : Store)
    (himg : d.image = some img) (hdec : base64_to_image img = some bytes)
    (hstr : ¬ (d.strength.getD (3 / 4) < 0 ∨ d.strength.getD (3 / 4) > 1))
    (hnum : ¬ (d.num_variations.getD 4 < 1 ∨ d.num_variations.getD 4 > 10))
    (hcalls : ∀ k, k < (d.num_variations.getD 4).toNat → (calls k).status = 200)
    (hfail : ∃ j, j < (d.num_variations.getD 4).toNat ∧ insertFails j = true) :
    generate_variations_route (some d) calls insertFails st =
      (.failure 500 "Storage failure", st) := by
  obtain ⟨j, hj, hjf⟩ := hfail
  obtain ⟨items, hitems, hilen⟩ := hf_variations_ok calls (d.prompt.getD "")
    (d.num_variations.getD 4).toNat 0 (fun k hk1 hk2 => hcalls k (by omega))
  have hnone := variations_inserts_fail
    (ParamsSnapshot.fromVariations
      { negative_prompt := d.negative_prompt.getD "",
        strength := d.strength.getD (3 / 4),
        num_inference_steps := d.num_inference_steps.getD 50,
        guidance_scale := d.guidance_scale.getD (15 / 2) })
    insertFails items st.nextId st.clock 0 j (by omega) (by simpa using hjf)
  simp only [generate_variations_route, himg]
  rw [if_neg hstr, if_neg hnum, hdec, hitems]
  simp only [hnone]

/-- Witness for the amended C4: two variations, both calls succeeding, the
second INSERT failing; the result is a 500 with the store unchanged. -/
theorem variations_storage_failure_rollback_witness :
    generate_variations_route
        (some ⟨some [], some "", none, some 1, some 50, some 8, some 2⟩)
        (fun _ => ⟨200, [7], some 3, 5⟩) (fun k => 1 ≤ k) ⟨[], 4, 9⟩ =
      (.failure 500 "Storage failure", ⟨[], 4, 9⟩) :=
  variations_storage_failure_rollback
    ⟨some [], some "", none, some 1, some 50, some 8, some 2⟩ [] []
    (fun _ => ⟨200, [7], some 3, 5⟩) (fun k => 1 ≤ k) ⟨[], 4, 9⟩
    rfl rfl (by norm_num) (by norm_num) (fun k _ => rfl)
    ⟨1, by norm_num, by decide⟩

end GenAI
